import Mathlib

/-!
Verification development for the Slurm Cray burst-buffer plugin
(`src/plugins/burst_buffer/cray/burst_buffer_cray.c`).

The definitions below are a shallow embedding of the plugin's data model and
of the functions the claims speak about.  Functions that live in the shared
burst-buffer library (`burst_buffer_common.c`) or in Slurm headers are not
part of the provided source tree; those few definitions are modelled from the
specification and are marked as such in their doc comments.  Everything else
is translated directly from `burst_buffer_cray.c`, with source line numbers
given in the doc comments.

Machine integers: sizes and counts are `uint64_t` in the source and are
modelled as `Nat`; the signed 64-bit deficit arithmetic of
`_test_size_limit` is modelled as `Int` (the quantities involved are derived
from buffer sizes and never approach the 64-bit boundary in the properties
proved here).
-/

namespace BurstBuffer

/-- Burst-buffer state codes.  Modelled from the spec: the lifecycle states
`PENDING → ALLOCATING/STAGING_IN → STAGED_IN → RUNNING → STAGING_OUT →
TEARDOWN → COMPLETE` and the persistent sub-request states
`PENDING → ALLOCATING|DELETING → ALLOCATED|DELETED` (the numeric values come
from `slurm.h`, which is not under `src/`; only their distinctness and order
matter here). -/
def BB_STATE_PENDING : Nat := 0

/-- State code, see `BB_STATE_PENDING`. -/
def BB_STATE_ALLOCATING : Nat := 1

/-- State code, see `BB_STATE_PENDING`. -/
def BB_STATE_ALLOCATED : Nat := 2

/-- State code, see `BB_STATE_PENDING`. -/
def BB_STATE_DELETING : Nat := 5

/-- State code, see `BB_STATE_PENDING`. -/
def BB_STATE_DELETED : Nat := 6

/-- State code, see `BB_STATE_PENDING`. -/
def BB_STATE_STAGING_IN : Nat := 17

/-- State code, see `BB_STATE_PENDING`. -/
def BB_STATE_STAGED_IN : Nat := 18

/-- State code, see `BB_STATE_PENDING`. -/
def BB_STATE_RUNNING : Nat := 34

/-- State code, see `BB_STATE_PENDING`. -/
def BB_STATE_STAGING_OUT : Nat := 49

/-- State code, see `BB_STATE_PENDING`. -/
def BB_STATE_STAGED_OUT : Nat := 50

/-- State code, see `BB_STATE_PENDING`. -/
def BB_STATE_TEARDOWN : Nat := 65

/-- State code, see `BB_STATE_PENDING`. -/
def BB_STATE_COMPLETE : Nat := 66

/-- One configured generic-resource pool
(`burst_buffer_gres_t` entry of `bb_state.bb_config.gres_ptr`). -/
structure CfgGres where
  name : String
  granularity : Nat
  avail_cnt : Nat
  used_cnt : Nat
deriving DecidableEq

/-- One generic-resource request of a job (`bb_job->gres_ptr` entry). -/
structure BbGres where
  name : String
  count : Nat
deriving DecidableEq

/-- Scheduling scratch record `needed_gres_t` of `burst_buffer_cray.c`
(lines 153-157).  `add_cnt`/`avail_cnt` are `uint64_t` in the source; they
are modelled as `Int` because the source mixes them into signed arithmetic;
both stay non-negative on all paths exercised here. -/
structure NeededGres where
  name : String
  add_cnt : Int
  avail_cnt : Int
deriving DecidableEq

/-- An Allocation Record (`bb_alloc_t`).  The `id` field models the identity
of the heap record (the C pointer); `gres` models `gres_ptr` as
`(name, used_cnt)` pairs. -/
structure BbAlloc where
  id : Nat
  name : Option String
  job_id : Nat
  user_id : Nat
  size : Nat
  use_time : Int
  create_time : Int
  seen_time : Int
  state : Nat
  cancelled : Bool
  account : Option String
  partition : Option String
  qos : Option String
  gres : List (String × Nat)
deriving DecidableEq

/-- One persistent-buffer sub-request of a job (`bb_buf_t` entry of
`bb_job->buf_ptr`). -/
structure BbJobBuf where
  name : String
  size : Nat
  state : Nat
  destroy : Bool
  hurry : Bool
deriving DecidableEq

/-- A cached Job Descriptor (`bb_job_t`). -/
structure BbJob where
  job_id : Nat
  account : Option String
  partition : Option String
  qos : Option String
  total_size : Nat
  persist_add : Nat
  state : Nat
  gres : List BbGres
  bufs : List BbJobBuf
deriving DecidableEq

/-- The fields of the scheduler's `struct job_record` consumed by the
functions embedded here. -/
structure JobRec where
  job_id : Nat
  user_id : Nat
  start_time : Int
deriving DecidableEq

/-- Configured limit caps.  Modelled from the spec: the Limit Tracker's caps
"are independently optional; absence of a cap means unconstrained on that
axis"; `user_cap` is `bb_state.bb_config.user_size_limit`, with `none`
standing for the source's `NO_VAL64` sentinel. -/
structure LimitCaps where
  user_cap : Option Nat
  account_cap : Option Nat
  partition_cap : Option Nat
  qos_cap : Option Nat
deriving DecidableEq

/-- Limit Tracker usage counters.  Modelled from the spec: "per (user,
account, partition, QoS) aggregated usage counters" (`bb_limit_add` and
friends live in `burst_buffer_common.c`, which is not under `src/`).
`by_user` also models the `bb_user_t.size` field read by
`bb_find_user_rec`. -/
structure LimitUsage where
  by_user : List (Nat × Int)
  by_account : List (Option String × Int)
  by_partition : List (Option String × Int)
  by_qos : List (Option String × Int)
deriving DecidableEq

/-- The plugin-wide shared state (`bb_state_t`), restricted to the fields the
embedded functions touch.  `ahash` flattens the `bb_ahash` user-id hash
buckets into one chain (the bucket assignment `user_id % BB_HASH_SIZE` is a
memory-layout detail).  `freed_ids` and `corrupt` model heap bookkeeping:
`freed_ids` records destroyed Allocation Records and `corrupt` is set when a
destroyed record is dereferenced or destroyed again. -/
structure BbState where
  name : String
  total_space : Nat
  used_space : Nat
  granularity : Nat
  caps : LimitCaps
  cfg_gres : List CfgGres
  limits : LimitUsage
  ahash : List BbAlloc
  last_load_time : Int
  freed_ids : List Nat
  corrupt : Bool
deriving DecidableEq

/-- Look an entry up in an association list of running totals, defaulting to
zero. -/
def assocGet [BEq κ] (l : List (κ × Int)) (k : κ) : Int :=
  match l.find? (fun p => p.1 == k) with
  | some p => p.2
  | none => 0

/-- Add a (possibly negative) delta to an entry of an association list of
running totals. -/
def assocAdd [BEq κ] : List (κ × Int) → κ → Int → List (κ × Int)
  | [], k, d => [(k, d)]
  | (k', v) :: t, k, d =>
    if k' == k then (k', v + d) :: t else (k', v) :: assocAdd t k d

/-- Modelled from the spec: `LimitTracker.add(user, account, partition, qos,
size)` adds `size` to the running total of each governing key
(`bb_limit_add` of `burst_buffer_common.c`, not under `src/`). -/
def bb_limit_add (user : Nat) (account partition qos : Option String)
    (size : Nat) (st : BbState) : BbState :=
  { st with limits :=
      { by_user := assocAdd st.limits.by_user user size
        by_account := assocAdd st.limits.by_account account size
        by_partition := assocAdd st.limits.by_partition partition size
        by_qos := assocAdd st.limits.by_qos qos size } }

/-- Modelled from the spec: `LimitTracker.remove` undoes a matching
`LimitTracker.add` (`bb_limit_rem` of `burst_buffer_common.c`, not under
`src/`). -/
def bb_limit_rem (user : Nat) (account partition qos : Option String)
    (size : Nat) (st : BbState) : BbState :=
  { st with limits :=
      { by_user := assocAdd st.limits.by_user user (-(size : Int))
        by_account := assocAdd st.limits.by_account account (-(size : Int))
        by_partition := assocAdd st.limits.by_partition partition (-(size : Int))
        by_qos := assocAdd st.limits.by_qos qos (-(size : Int)) } }

/-- Check one cap axis: an absent cap is unconstrained. -/
def capOk (cap : Option Nat) (usage : Int) (size : Nat) : Bool :=
  match cap with
  | none => true
  | some c => usage + (size : Int) ≤ (c : Int)

/-- Modelled from the spec: `LimitTracker.test(user, account, partition, qos,
size)` "returns false if applying `size` would exceed any configured cap
that governs the user, account, partition, or QoS" (`bb_limit_test` of
`burst_buffer_common.c`, not under `src/`; the source call site treats a
return `< 1` as failure, modelled as `false`). -/
def bb_limit_test (user : Nat) (account partition qos : Option String)
    (size : Nat) (st : BbState) : Bool :=
  capOk st.caps.user_cap (assocGet st.limits.by_user user) size &&
  capOk st.caps.account_cap (assocGet st.limits.by_account account) size &&
  capOk st.caps.partition_cap (assocGet st.limits.by_partition partition) size &&
  capOk st.caps.qos_cap (assocGet st.limits.by_qos qos) size

/-- Modelled from the spec: Buffer Registry lookup `find(name, userId)`
(`bb_find_name_rec` of `burst_buffer_common.c`, not under `src/`). -/
def bb_find_name_rec (name : String) (user_id : Nat) (st : BbState) :
    Option BbAlloc :=
  st.ahash.find? (fun a => a.name == some name && a.user_id == user_id)

/-- Modelled from the spec: Buffer Registry lookup `find(jobId)`
(`bb_find_alloc_rec` of `burst_buffer_common.c`, not under `src/`; the
registry keeps "at most one ephemeral record per job id"). -/
def bb_find_alloc_rec (st : BbState) (job_id : Nat) : Option BbAlloc :=
  st.ahash.find? (fun a => a.job_id == job_id)

/-- A fresh record identity, distinct from every live or destroyed record. -/
def freshAllocId (st : BbState) : Nat :=
  (st.ahash.map (fun a => a.id) ++ st.freed_ids).foldl max 0 + 1

/-- Modelled from the spec: `bb_alloc_name_rec` (in `burst_buffer_common.c`,
not under `src/`) returns the registry record keyed `(name, user_id)`,
inserting a fresh blank record first when none exists. -/
def bb_alloc_name_rec (st : BbState) (name : String) (user_id : Nat) :
    BbState × Nat :=
  match bb_find_name_rec name user_id st with
  | some a => (st, a.id)
  | none =>
    let i := freshAllocId st
    let a : BbAlloc :=
      { id := i, name := some name, job_id := 0, user_id := user_id,
        size := 0, use_time := 0, create_time := 0, seen_time := 0,
        state := BB_STATE_ALLOCATED, cancelled := false, account := none,
        partition := none, qos := none, gres := [] }
    ({ st with ahash := a :: st.ahash }, i)

/-- Modelled from the spec: `bb_free_alloc_rec` (in `burst_buffer_common.c`,
not under `src/`) unlinks an Allocation Record from the Buffer Registry and
destroys it ("Ownership: exclusively owned by the Buffer Registry ...
Destroyed when teardown completes").  The function first dereferences the
record it is handed (to locate its hash bucket), so calling it with an
already-destroyed record reads freed memory: the model sets `corrupt`. -/
def bb_free_alloc_rec (st : BbState) (rec_id : Nat) : BbState :=
  let st' := if st.freed_ids.contains rec_id then { st with corrupt := true } else st
  if (st'.ahash.find? (fun a => a.id == rec_id)).isSome then
    { st' with ahash := st'.ahash.filter (fun a => a.id ≠ rec_id),
               freed_ids := rec_id :: st'.freed_ids }
  else st'

/-- Modelled from the spec: pool granularity rounding — a request is rounded
up to a whole number of allocation units (`bb_granularity` of
`burst_buffer_common.c`, not under `src/`; zero stays zero). -/
def bb_granularity (size gran : Nat) : Nat :=
  if size = 0 then 0 else ((size + gran - 1) / gran) * gran

/-- One record of the reservation snapshot `resv_bb` returned by the
scheduler collaborator `job_test_bb_resv` (external to this plugin):
a plugin name, reserved space, and per-generic-resource reserved counts. -/
structure ResvRec where
  name : Option String
  used_space : Nat
  gres : List (String × Nat)
deriving DecidableEq

/-- From src `_get_bb_resv` (lines 1683-1705): sum the reserved counts of
generic resource `gres_name` over reservation records whose plugin name is
unset or equals this plugin's name. -/
def get_bb_resv (gres_name : String) (resv : List ResvRec) (pool : String) :
    Nat :=
  (resv.filter (fun r => r.name = none ∨ r.name = some pool)).foldl
    (fun acc r =>
      acc + (r.gres.filter (fun g => g.1 == gres_name)).foldl
        (fun a g => a + g.2) 0) 0

/-- From src `_test_size_limit` (lines 1746-1758): total reserved space over
reservation records naming this plugin, each rounded to the configured
granularity. -/
def resvSpace (st : BbState) (resv : List ResvRec) : Nat :=
  (resv.filter (fun r => r.name == some st.name)).foldl
    (fun acc r => acc + bb_granularity r.used_space st.granularity) 0

/-- Reserved space of an optional reservation snapshot (`resv_bb` may be
`NULL`). -/
def resvSpaceOpt (st : BbState) (resv : Option (List ResvRec)) : Nat :=
  match resv with
  | none => 0
  | some rs => resvSpace st rs

/-- Reserved count of one generic resource in an optional reservation
snapshot. -/
def gresResv (st : BbState) (resv : Option (List ResvRec)) (nm : String) :
    Nat :=
  match resv with
  | none => 0
  | some rs => get_bb_resv nm rs st.name

/-- First configured generic-resource pool with the given name (the source
scans `bb_state.bb_config.gres_ptr` and stops at the first `strcmp`
match). -/
def findCfgGres (cfg : List CfgGres) (nm : String) : Option CfgGres :=
  cfg.find? (fun c => c.name == nm)

/-- Total-space deficit computed by src `_test_size_limit` line 1768:
`bb_state.used_space + add_space + resv_space - bb_state.total_space`. -/
def totalSpaceDeficit (st : BbState) (bj : BbJob)
    (resv : Option (List ResvRec)) : Int :=
  (st.used_space : Int) + ((bj.total_size + bj.persist_add : Nat) : Int) +
    (resvSpaceOpt st resv : Int) - (st.total_space : Int)

/-- Per-user space deficit computed by src `_test_size_limit` lines
1760-1767 (`add_user_space_needed`; zero when no per-user cap is
configured). -/
def userSpaceDeficit (st : BbState) (job : JobRec) (bj : BbJob) : Int :=
  match st.caps.user_cap with
  | none => 0
  | some lim =>
    let tmp_u := assocGet st.limits.by_user job.user_id
    let tmp_j : Int := ((bj.total_size + bj.persist_add : Nat) : Int)
    if tmp_u + tmp_j > (lim : Int) then tmp_u + tmp_j - (lim : Int) else 0

/-- Free count of a configured generic resource after subtracting use and
reservations, src `_test_size_limit` lines 1793-1795 (`tmp_f`; "could go
negative due to reservations"). -/
def gresFreeCnt (st : BbState) (resv : Option (List ResvRec))
    (cj : CfgGres) : Int :=
  (cj.avail_cnt : Int) - (cj.used_cnt : Int) - (gresResv st resv cj.name : Int)

/-- Deficit of one recognized generic-resource request: the
granularity-rounded request minus the free count (`tmp_g - tmp_f` of src
`_test_size_limit` lines 1777-1797).  Unrecognized requests have no deficit
(the source defers the job instead). -/
def gresDeficit (st : BbState) (resv : Option (List ResvRec)) (g : BbGres) :
    Int :=
  match findCfgGres st.cfg_gres g.name with
  | none => 0
  | some cj =>
    ((bb_granularity g.count cj.granularity : Nat) : Int) - gresFreeCnt st resv cj

/-- The `needed_gres_ptr[i].add_cnt` value computed by src
`_test_size_limit` lines 1796-1797: the positive part of the
granularity-rounded request minus the free count (zero when the request
fits). -/
def gresAddCnt (st : BbState) (resv : Option (List ResvRec)) (g : BbGres)
    (cj : CfgGres) : Int :=
  if ((bb_granularity g.count cj.granularity : Nat) : Int) > gresFreeCnt st resv cj
  then ((bb_granularity g.count cj.granularity : Nat) : Int) - gresFreeCnt st resv cj
  else 0

/-- Outcome of the generic-resource limit scan, src `_test_size_limit` lines
1770-1812: either the loop completes (`ok`, with the rounded request list,
the `needed_gres_t` array and `add_total_gres_needed`) or the job is over
limit (`overLimit`, an unrecognized or over-configured request; the request
list carries the in-place rounding already performed). -/
inductive GresScan where
  | ok (gres' : List BbGres) (needed : List NeededGres) (total_needed : Int)
  | overLimit (gres' : List BbGres)
deriving DecidableEq

/-- From src `_test_size_limit` lines 1770-1812: walk the job's
generic-resource requests, rounding each recognized request count in place
(`bb_job->gres_ptr[i].count = tmp_g`, line 1780), failing on an
unrecognized pool (line 1801) or a request above the configured available
count (line 1781), and accumulating each request's positive deficit into
`needed_gres_ptr` / `add_total_gres_needed`. -/
def gresLimitScan (st : BbState) (resv : Option (List ResvRec)) :
    List BbGres → GresScan
  | [] => .ok [] [] 0
  | g :: gs =>
    match findCfgGres st.cfg_gres g.name with
    | none => .overLimit (g :: gs)
    | some cj =>
      let tmp_g := bb_granularity g.count cj.granularity
      let g' : BbGres := { g with count := tmp_g }
      if tmp_g > cj.avail_cnt then .overLimit (g' :: gs)
      else
        let add_cnt := gresAddCnt st resv g cj
        match gresLimitScan st resv gs with
        | .ok gs' needed tot =>
          .ok (g' :: gs') ({ name := g.name, add_cnt := add_cnt, avail_cnt := 0 } :: needed)
            (add_cnt + tot)
        | .overLimit gs' => .overLimit (g' :: gs')

/-- A transient preemption-candidate record, `struct preempt_bb_recs`
(declared in `burst_buffer_common.h`); `gres` carries the candidate
allocation's `(name, used_cnt)` pairs and `alloc_id` the identity of the
underlying Allocation Record (`bb_ptr`). -/
structure PreemptCand where
  alloc_id : Nat
  job_id : Nat
  user_id : Nat
  size : Nat
  use_time : Int
  gres : List (String × Nat)
deriving DecidableEq

/-- Build the candidate record from an allocation, src `_test_size_limit`
lines 1831-1837. -/
def mkCand (a : BbAlloc) : PreemptCand :=
  { alloc_id := a.id, job_id := a.job_id, user_id := a.user_id,
    size := a.size, use_time := a.use_time, gres := a.gres }

/-- Read `needed_gres_ptr[j]`; an out-of-range index (possible in the source
when a candidate has more generic-resource entries than the job, an
out-of-bounds read flagged by the spec's design notes) yields a blank entry
whose deficit is zero. -/
def neededGetD (l : List NeededGres) (j : Nat) : NeededGres :=
  l.getD j { name := "", add_cnt := 0, avail_cnt := 0 }

/-- Add a delta to `needed_gres_ptr[j].avail_cnt`. -/
def updNeededAvailAt : List NeededGres → Nat → Int → List NeededGres
  | [], _, _ => []
  | n :: t, 0, d => { n with avail_cnt := n.avail_cnt + d } :: t
  | n :: t, j + 1, d => n :: updNeededAvailAt t j d

/-- Subtract a delta from `needed_gres_ptr[j].add_cnt`. -/
def updNeededAddAt : List NeededGres → Nat → Int → List NeededGres
  | [], _, _ => []
  | n :: t, 0, d => { n with add_cnt := n.add_cnt - d } :: t
  | n :: t, j + 1, d => n :: updNeededAddAt t j d

/-- Inner loop of the candidate scan's generic-resource accumulation, src
`_test_size_limit` lines 1851-1862: walk the job's (already rounded)
requests; at each name match clamp the running `d` to the request count and
add the clamped `d` to the availability accumulators.  Returns the final
`d` and the total amount added. -/
def scanGresInner (jobGres : List BbGres) (nm : String) (d0 : Int) :
    Int × Int :=
  jobGres.foldl
    (fun (acc : Int × Int) g =>
      if g.name == nm then
        let d := if (g.count : Int) < acc.1 then (g.count : Int) else acc.1
        (d, acc.2 + d)
      else acc)
    (d0, 0)

/-- Per-candidate generic-resource accumulation of the candidate scan, src
`_test_size_limit` lines 1842-1863.  The loop index `j` runs over the
candidate's `gres_cnt` but indexes `needed_gres_ptr` (which has the job's
length); when `add_total_gres_needed < add_total_gres_avail` the index
starts at `gres_cnt`, skipping the loop entirely. -/
def scanCandGres (totalNeeded : Int) (jobGres : List BbGres)
    (candGresCnt : Nat) (gres_avail : Int) (needed : List NeededGres) :
    Int × List NeededGres :=
  if totalNeeded < gres_avail then (gres_avail, needed)
  else
    (List.range candGresCnt).foldl
      (fun (acc : Int × List NeededGres) j =>
        let nj := neededGetD acc.2 j
        let d := nj.add_cnt - nj.avail_cnt
        if d ≤ 0 then acc
        else
          let added := (scanGresInner jobGres nj.name d).2
          (acc.1 + added, updNeededAvailAt acc.2 j added))
      (gres_avail, needed)

/-- Accumulator of the candidate scan, src `_test_size_limit` lines
1824-1867: the pushed candidate list and the `add_total_space_avail`,
`add_user_space_avail`, `add_total_gres_avail` sums plus the mutated
`needed_gres_ptr` array. -/
structure ScanAcc where
  cands : List PreemptCand
  total_avail : Int
  user_avail : Int
  gres_avail : Int
  needed : List NeededGres
deriving DecidableEq

/-- From src `_test_size_limit` lines 1825-1867: walk every held allocation;
those with a job id whose use time is after `now` and after the requesting
job's start time are pushed as preemption candidates, accumulating the
slack they would free.  NOTE the source's line 1840 reads
`if (bb_ptr->user_id == job_ptr->user_id);` — the statement ends in a stray
semicolon, so the following `add_user_space_avail += bb_ptr->size;` executes
unconditionally; the model reproduces that faithfully. -/
def candScan (job : JobRec) (jobGres : List BbGres) (now : Int)
    (totalNeeded : Int) : List BbAlloc → ScanAcc → ScanAcc
  | [], acc => acc
  | a :: rest, acc =>
    if a.job_id ≠ 0 ∧ a.use_time > now ∧ a.use_time > job.start_time then
      let acc1 : ScanAcc :=
        { acc with
            cands := mkCand a :: acc.cands,
            total_avail := acc.total_avail + (a.size : Int),
            user_avail := acc.user_avail + (a.size : Int) }
      let ga := scanCandGres totalNeeded jobGres a.gres.length acc1.gres_avail acc1.needed
      candScan job jobGres now totalNeeded rest
        { acc1 with gres_avail := ga.1, needed := ga.2 }
    else candScan job jobGres now totalNeeded rest acc

/-- Insert a candidate into a use-time-sorted list (ascending). -/
def insertByUse (c : PreemptCand) : List PreemptCand → List PreemptCand
  | [] => [c]
  | d :: t => if c.use_time ≤ d.use_time then c :: d :: t else d :: insertByUse c t

/-- Modelled from the spec: the candidate sort of src `_test_size_limit`
line 1872 orders by use time (`bb_preempt_queue_sort` lives in
`burst_buffer_common.c`, not under `src/`; no property proved here depends
on the order, only on membership). -/
def sortByUse : List PreemptCand → List PreemptCand
  | [] => []
  | c :: t => insertByUse c (sortByUse t)

/-- Mutable state of the preemption selection loop, src `_test_size_limit`
lines 1873-1927: remaining deficits, the `needed_gres_t` array, and the
identities of the allocations marked for teardown so far. -/
structure PreemptLoopSt where
  tsn : Int
  usn : Int
  tgn : Int
  needed : List NeededGres
  cancels : List Nat
deriving DecidableEq

/-- Inner loop of the selection's generic-resource matching, src
`_test_size_limit` lines 1894-1909: walk the candidate's resources; at each
name match clamp `d` to the candidate's used count and subtract the clamped
`d` from the deficit accumulators.  Returns the final `d`, the total
subtracted, and whether any match happened. -/
def preemptGresInner (candGres : List (String × Nat)) (nm : String)
    (d0 : Int) : Int × Int × Bool :=
  candGres.foldl
    (fun (acc : Int × Int × Bool) g =>
      if g.1 == nm then
        let d := if (g.2 : Int) < acc.1 then (g.2 : Int) else acc.1
        (d, acc.2.1 + d, true)
      else acc)
    (d0, 0, false)

/-- Walk of the index list `j = 0 .. gres_cnt-1` of the selection's
generic-resource matching, see `preemptCandGres`. -/
def preemptCandGresGo (c : PreemptCand) :
    List Nat → PreemptLoopSt × Bool → PreemptLoopSt × Bool
  | [], acc => acc
  | j :: js, acc =>
    let nj := neededGetD acc.1.needed j
    let d := nj.add_cnt
    if d ≤ 0 then preemptCandGresGo c js acc
    else
      let r := preemptGresInner c.gres nj.name d
      if r.2.2 then
        preemptCandGresGo c js
          ({ acc.1 with
               tgn := acc.1.tgn - r.2.1,
               needed := updNeededAddAt acc.1.needed j r.2.1 }, true)
      else preemptCandGresGo c js acc

/-- Generic-resource part of one selection step, src `_test_size_limit`
lines 1889-1911: for each `needed_gres_ptr[j]` with a positive remaining
`add_cnt`, subtract what this candidate can supply.  Returns the updated
loop state and whether the candidate supplied anything (`do_preempt`). -/
def preemptCandGres (c : PreemptCand) (st : PreemptLoopSt) :
    PreemptLoopSt × Bool :=
  preemptCandGresGo c (List.range st.needed.length) (st, false)

/-- One step of the preemption selection loop, src `_test_size_limit` lines
1877-1926: a candidate is marked (teardown queued with hurry, identity
appended to `cancels`) when it serves the same-user deficit, the total-space
deficit, or a generic-resource deficit. -/
def preemptStep (jobUser : Nat) (c : PreemptCand) (st : PreemptLoopSt) :
    PreemptLoopSt :=
  let s1 :=
    if st.usn ≠ 0 ∧ c.user_id = jobUser then
      ({ st with usn := st.usn - (c.size : Int), tsn := st.tsn - (c.size : Int) }, true)
    else (st, false)
  let s2 :=
    if s1.1.tsn > s1.1.usn ∧ c.user_id ≠ jobUser then
      ({ s1.1 with tsn := s1.1.tsn - (c.size : Int) }, true)
    else s1
  let s3 :=
    if s2.1.tgn ≠ 0 then
      let r := preemptCandGres c s2.1
      (r.1, s2.2 || r.2)
    else s2
  if s3.2 then { s3.1 with cancels := s3.1.cancels ++ [c.alloc_id] } else s3.1

/-- The preemption selection loop, src `_test_size_limit` lines 1874-1927:
walk the sorted candidates while any deficit is non-zero. -/
def preemptLoop (jobUser : Nat) : List PreemptCand → PreemptLoopSt →
    PreemptLoopSt
  | [], st => st
  | c :: cs, st =>
    if st.tsn = 0 ∧ st.usn = 0 ∧ st.tgn = 0 then st
    else preemptLoop jobUser cs (preemptStep jobUser c st)

/-- Apply the marking of src `_test_size_limit` lines 1912-1918 to the
registry: each cancelled allocation gets `cancelled = true` and state
`BB_STATE_TEARDOWN` (its teardown is queued with hurry). -/
def applyCancels (cancels : List Nat) (ahash : List BbAlloc) : List BbAlloc :=
  ahash.map (fun a =>
    if cancels.contains a.id then
      { a with cancelled := true, state := BB_STATE_TEARDOWN }
    else a)

/-- Result of `_test_size_limit`: the return code (0 admit, 1 over limit,
2 no space), the job descriptor after the call (its generic-resource counts
are mutated in place), the identities of allocations marked for teardown,
the registry after marking, and the scan's slack sums. -/
structure TestSizeResult where
  rc : Nat
  bb_job : BbJob
  cancels : List Nat
  ahash : List BbAlloc
  add_total_space_avail : Int
  add_user_space_avail : Int
deriving DecidableEq

/-- From src `_test_size_limit` (lines 1715-1934): the admission test.
`resv` stands for the snapshot returned by the external collaborator
`job_test_bb_resv` and `now` for `time(NULL)`. -/
def test_size_limit (st : BbState) (job : JobRec) (bj : BbJob)
    (resv : Option (List ResvRec)) (now : Int) : TestSizeResult :=
  let add_space := bj.total_size + bj.persist_add
  if ¬ (bb_limit_test job.user_id bj.account bj.partition bj.qos add_space st) then
    { rc := 1, bb_job := bj, cancels := [], ahash := st.ahash,
      add_total_space_avail := 0, add_user_space_avail := 0 }
  else
    let add_user_space_needed := userSpaceDeficit st job bj
    let add_total_space_needed := totalSpaceDeficit st bj resv
    match gresLimitScan st resv bj.gres with
    | .overLimit gres' =>
      { rc := 1, bb_job := { bj with gres := gres' }, cancels := [],
        ahash := st.ahash, add_total_space_avail := 0, add_user_space_avail := 0 }
    | .ok gres' needed add_total_gres_needed =>
      let bj' := { bj with gres := gres' }
      if add_total_space_needed ≤ 0 ∧ add_user_space_needed ≤ 0 ∧
         add_total_gres_needed ≤ 0 then
        { rc := 0, bb_job := bj', cancels := [], ahash := st.ahash,
          add_total_space_avail := 0, add_user_space_avail := 0 }
      else
        let acc := candScan job bj'.gres now add_total_gres_needed st.ahash
          { cands := [], total_avail := 0, user_avail := 0, gres_avail := 0,
            needed := needed }
        if acc.total_avail ≥ add_total_space_needed ∧
           acc.user_avail ≥ add_user_space_needed ∧
           acc.gres_avail ≥ add_total_gres_needed then
          let fin := preemptLoop job.user_id (sortByUse acc.cands)
            { tsn := add_total_space_needed, usn := add_user_space_needed,
              tgn := add_total_gres_needed, needed := acc.needed, cancels := [] }
          { rc := 2, bb_job := bj', cancels := fin.cancels,
            ahash := applyCancels fin.cancels st.ahash,
            add_total_space_avail := acc.total_avail,
            add_user_space_avail := acc.user_avail }
        else
          { rc := 2, bb_job := bj', cancels := [], ahash := st.ahash,
            add_total_space_avail := acc.total_avail,
            add_user_space_avail := acc.user_avail }

/-- Observable outcome of the stage-out worker's commit phase: whether a
failure reason was recorded on the job, the allocation's and the job
descriptor's states afterwards, and whether teardown was enqueued (`some
hurry`) or not (`none`). -/
structure StageOutOut where
  state_reason_set : Bool
  bb_alloc_state : Option Nat
  bb_job_state : Option Nat
  teardown_hurry : Option Bool
deriving DecidableEq

/-- From src `_start_stage_out` (lines 1412-1526): run `dws_data_out`, then
on success `dws_post_run` (each external call is summarized by whether it
exited normally and its exit code), then commit under the locks (lines
1479-1519): on failure record a failure reason on the job; set a found
allocation's state to `BB_STATE_TEARDOWN` only on success; set the job
descriptor's state to `BB_STATE_TEARDOWN` unconditionally; enqueue teardown
(with `hurry = false`) only when `rc == SLURM_SUCCESS` (line 1513). -/
def start_stage_out (dataOutExited : Bool) (dataOutCode : Nat)
    (postRunExited : Bool) (postRunCode : Nat) (jobFound : Bool)
    (allocState : Option Nat) (bbJobState : Option Nat) : StageOutOut :=
  let rc1 := dataOutExited && (dataOutCode == 0)
  let rc := rc1 && (postRunExited && (postRunCode == 0))
  if ¬ jobFound then
    { state_reason_set := false, bb_alloc_state := allocState,
      bb_job_state := bbJobState, teardown_hurry := none }
  else
    { state_reason_set := ¬ rc
      bb_alloc_state :=
        match allocState with
        | some s => if rc then some BB_STATE_TEARDOWN else some s
        | none => none
      bb_job_state := bbJobState.map (fun _ => BB_STATE_TEARDOWN)
      teardown_hurry := if rc then some false else none }

/-- Commit phase of the teardown worker, src `_start_teardown` lines
1627-1663 (reached when the tool call succeeded or its response contains
"token not found"): when the job record exists, the matching allocation's
limits are removed and the record is destroyed — the source calls
`bb_free_alloc_rec` twice in a row (lines 1637-1638, and again 1656-1657 on
the vestigial path) — and the job descriptor is marked `BB_STATE_COMPLETE`;
when the job record is gone, the allocation found by name
(`"%u"`-formatted job id) is treated the same way.  Returns the state and
the job descriptor's state. -/
def start_teardown_commit (st : BbState) (job_id user_id : Nat)
    (jobFound : Bool) (bjState : Option Nat) : BbState × Option Nat :=
  if jobFound then
    let st' :=
      match bb_find_alloc_rec st job_id with
      | some a =>
        let s1 := bb_limit_rem a.user_id a.account a.partition a.qos a.size st
        let s2 := bb_free_alloc_rec s1 a.id
        bb_free_alloc_rec s2 a.id
      | none => st
    (st', bjState.map (fun _ => BB_STATE_COMPLETE))
  else
    let st' :=
      match bb_find_name_rec (toString job_id) user_id st with
      | some a =>
        let s1 := bb_limit_rem a.user_id a.account a.partition a.qos a.size st
        let s2 := bb_free_alloc_rec s1 a.id
        bb_free_alloc_rec s2 a.id
      | none => st
    (st', bjState)

/-- From src `_start_teardown` (lines 1588-1669): the teardown worker runs
the tool's `teardown` function; when the call fails and the response does
not contain "token not found" it only logs; otherwise it runs the commit
phase. -/
def start_teardown (st : BbState) (job_id user_id : Nat) (jobFound : Bool)
    (bjState : Option Nat) (exited : Bool) (code : Nat)
    (respTokenNotFound : Bool) : BbState × Option Nat :=
  if ((¬ exited) ∨ code ≠ 0) ∧ ¬ respTokenNotFound then (st, bjState)
  else start_teardown_commit st job_id user_id jobFound bjState

/-- Set the state of sub-request `i` of a buffer list. -/
def setBufStateAt : List BbJobBuf → Nat → Nat → List BbJobBuf
  | [], _, _ => []
  | b :: t, 0, s => { b with state := s } :: t
  | b :: t, i + 1, s => b :: setBufStateAt t i s

/-- From src `_create_bufs` (lines 3332-3379), the handling of one
sub-request in the create branch: a `PENDING` create sub-request gets its
size added to the Limit Tracker (line 3352) and both the job state and the
sub-request state are set to `BB_STATE_ALLOCATING` (lines 3355-3356) before
the `_create_persistent` worker is spawned. -/
def create_bufs_create_one (st : BbState) (job : JobRec) (bj : BbJob)
    (i : Nat) : BbState × BbJob :=
  match bj.bufs.get? i with
  | none => (st, bj)
  | some buf =>
    if buf.state = BB_STATE_ALLOCATING ∨ buf.state = BB_STATE_DELETING then
      (st, bj)
    else if buf.state ≠ BB_STATE_PENDING then (st, bj)
    else if ¬ buf.destroy then
      let st' := bb_limit_add job.user_id bj.account bj.partition bj.qos buf.size st
      (st', { bj with state := BB_STATE_ALLOCATING,
                      bufs := setBufStateAt bj.bufs i BB_STATE_ALLOCATING })
    else (st, bj)

/-- Whether a sub-request state counts as active in src `_reset_buf_state`
lines 3480-3483. -/
def bufIsActive (b : BbJobBuf) : Bool :=
  b.state = BB_STATE_PENDING ∨ b.state = BB_STATE_ALLOCATING ∨
  b.state = BB_STATE_DELETING ∨ b.state = BB_STATE_TEARDOWN

/-- First loop of src `_reset_buf_state` (lines 3458-3475): find the first
sub-request with the given name, move it to `new_state`, and remove the
Limit Tracker reservation when leaving `ALLOCATING`/`DELETING` for
`PENDING`. -/
def resetFirstMatching (user_id : Nat) (account partition qos : Option String)
    (name : String) (new_state : Nat) :
    BbState → List BbJobBuf → BbState × List BbJobBuf
  | st, [] => (st, [])
  | st, b :: t =>
    if b.name = name then
      let st' :=
        if (b.state = BB_STATE_ALLOCATING ∧ new_state = BB_STATE_PENDING) ∨
           (b.state = BB_STATE_DELETING ∧ new_state = BB_STATE_PENDING) then
          bb_limit_rem user_id account partition qos b.size st
        else st
      (st', { b with state := new_state } :: t)
    else
      let r := resetFirstMatching user_id account partition qos name new_state st t
      (r.1, b :: r.2)

/-- From src `_reset_buf_state` (lines 3443-3493).  The completion scan
(lines 3477-3486) `break`s unconditionally after its first iteration, so
only the first sub-request is examined; moreover `active_buf` is declared
without an initializer (line 3449), so when the first sub-request is not
active the decision reads an indeterminate value — modelled by the
`uninitActive` parameter. -/
def reset_buf_state (uninitActive : Bool) (st : BbState) (bj : BbJob)
    (user_id : Nat) (name : String) (new_state : Nat) : BbState × BbJob :=
  let r := resetFirstMatching user_id bj.account bj.partition bj.qos name
    new_state st bj.bufs
  let bj1 := { bj with bufs := r.2 }
  let active_buf :=
    match bj1.bufs with
    | [] => uninitActive
    | b :: _ => if bufIsActive b then true else uninitActive
  let bj2 :=
    if active_buf then bj1
    else
      if bj1.state = BB_STATE_ALLOCATING then { bj1 with state := BB_STATE_ALLOCATED }
      else if bj1.state = BB_STATE_DELETING then { bj1 with state := BB_STATE_DELETED }
      else bj1
  (r.1, bj2)

/-- Mirrors the disabled failure test of src `_create_persistent` lines
3544-3545: the check of the tool's exit status is commented out and
replaced by `if (0)` (the source comments "FIXME: Cray bug: API exit code
NOT 0 on success as documented"), so the failure branch is dead code. -/
def create_persistent_failure_check : Bool := false

/-- From src `_create_persistent` (lines 3496-3609), the commit phase after
the `create_persistent` tool call: the failure branch (reset the
sub-request to `PENDING`, hold the job) is guarded by
`create_persistent_failure_check` — `if (0)` in the source; the success
branch requires the response to contain "created" and then moves the
sub-request to `ALLOCATED`, obtains the named Allocation Record (creating
it if needed) and fills in its size and, from the job record when present,
account/partition/qos.  Returns the state, the job descriptor, and whether
the job was held with a failure reason. -/
def create_persistent_commit (uninitActive : Bool) (emulate : Bool)
    (st : BbState) (bj : BbJob) (jobFound : Bool)
    (jobAccount jobPartition jobQos : Option String) (name : String)
    (size user_id : Nat) (exited : Bool) (code : Nat) (respCreated : Bool)
    (now : Int) : BbState × BbJob × Bool :=
  if create_persistent_failure_check ∧ ((¬ exited) ∨ code ≠ 0) then
    let r := reset_buf_state uninitActive st bj user_id name BB_STATE_PENDING
    (r.1, r.2, true)
  else if respCreated then
    let r := reset_buf_state uninitActive st bj user_id name BB_STATE_ALLOCATED
    let ar := bb_alloc_name_rec r.1 name user_id
    let st2 :=
      { ar.1 with ahash := ar.1.ahash.map (fun a =>
          if a.id = ar.2 then
            { a with size := size,
                     create_time := if emulate then now else a.create_time,
                     account := if jobFound then jobAccount else a.account,
                     partition := if jobFound then jobPartition else a.partition,
                     qos := if jobFound then jobQos else a.qos }
          else a) }
    (st2, r.2, false)
  else (st, bj, false)

/-- Leading-decimal-digit value of a string (the `strtol` base-10 parse of
src lines 792 and 1006, applied to strings that start with a digit). -/
def parseLeadingNat (s : String) : Nat :=
  (s.toList.takeWhile Char.isDigit).foldl (fun n c => n * 10 + (c.toNat - 48)) 0

/-- One session entry of the inventory snapshot (`bb_sessions_t`). -/
structure SessionRec where
  token : String
  user_id : Nat
deriving DecidableEq

/-- From src `_load_state` lines 987-1020 (non-init path), handling of one
inventory session: a session whose token matches a tracked record refreshes
that record's `seen_time` to the new load time; an unexpected session is
logged and then a record is created for it — job id parsed from a numeric
token (lines 1003-1008), size taken from the (last) instance entry (lines
1010-1011, flagged `FIXME` in the source), metadata copied from another
record of the same user or defaulted (`_pick_alloc_account`, lines
833-910, with the accounting-subsystem defaults supplied as `defs`), and
the size added to the Limit Tracker (lines 1016-1018). -/
def load_state_one_session (instances : List Nat)
    (defs : Option String × Option String × Option String) (now : Int)
    (st : BbState) (s : SessionRec) : BbState :=
  match bb_find_name_rec s.token s.user_id st with
  | some a =>
    { st with ahash := st.ahash.map (fun b =>
        if b.id = a.id then { b with seen_time := now } else b) }
  | none =>
    let i := freshAllocId st
    let jid :=
      match s.token.toList with
      | c :: _ => if c.isDigit then parseLeadingNat s.token else 0
      | [] => 0
    let sz := instances.foldl (fun _ b => b) 0
    let meta :=
      match st.ahash.find? (fun b => b.user_id = s.user_id) with
      | some b => (b.account, b.partition, b.qos)
      | none => defs
    let a : BbAlloc :=
      { id := i, name := some s.token, job_id := jid, user_id := s.user_id,
        size := sz, use_time := 0, create_time := 0, seen_time := now,
        state := BB_STATE_ALLOCATED, cancelled := false, account := meta.1,
        partition := meta.2.1, qos := meta.2.2, gres := [] }
    bb_limit_add s.user_id meta.1 meta.2.1 meta.2.2 sz
      { st with ahash := a :: st.ahash }

/-- From src `_load_state` lines 984-1021: an inventory refresh first sets
`bb_state.last_load_time` to the current time (line 986) and then walks the
session list. -/
def load_state_sessions (instances : List Nat)
    (defs : Option String × Option String × Option String)
    (sessions : List SessionRec) (now : Int) (st : BbState) : BbState :=
  sessions.foldl (load_state_one_session instances defs now)
    { st with last_load_time := now }

/-- Walk of one (flattened) hash chain by src `_timeout_bb_rec` lines
1951-1985: a record whose `seen_time` predates the last inventory load is
purged — its Limit Tracker contribution removed, the record unlinked and
destroyed — and the chain walk `break`s; a `BB_STATE_COMPLETE` record whose
job is gone or pending is unlinked and destroyed likewise.  `jobGone j`
models `!find_job_record(j) || IS_JOB_PENDING(job_ptr)`. -/
def timeout_go (jobGone : Nat → Bool) : List BbAlloc → BbState → BbState
  | [], st => st
  | a :: rest, st =>
    if a.seen_time < st.last_load_time then
      let st1 := bb_limit_rem a.user_id a.account a.partition a.qos a.size st
      { st1 with ahash := st1.ahash.filter (fun b => b.id ≠ a.id),
                 freed_ids := a.id :: st1.freed_ids }
    else if a.state = BB_STATE_COMPLETE ∧ jobGone a.job_id then
      { st with ahash := st.ahash.filter (fun b => b.id ≠ a.id),
                freed_ids := a.id :: st.freed_ids }
    else timeout_go jobGone rest st

/-- From src `_timeout_bb_rec` (lines 1942-1986); a no-op under the
emulation flag (line 1948). -/
def timeout_bb_rec (emulate : Bool) (jobGone : Nat → Bool) (st : BbState) :
    BbState :=
  if emulate then st else timeout_go jobGone st.ahash st

/-- From src `_bb_agent` (lines 383-403): one reconciliation cycle runs
`_load_state` and then `_timeout_bb_rec` (the final `_save_limits_state`
persists metadata and does not change this state). -/
def bb_agent_cycle (emulate : Bool) (instances : List Nat)
    (defs : Option String × Option String × Option String)
    (sessions : List SessionRec) (jobGone : Nat → Bool) (now : Int)
    (st : BbState) : BbState :=
  timeout_bb_rec emulate jobGone
    (load_state_sessions instances defs sessions now st)

/-- One packed field of the durable metadata snapshot (`Buf` contents);
`pstr`/`ptime`/`p16`/`p32`/`p64` stand for `packstr`/`pack_time`/`pack16`/
`pack32`/`pack64` of Slurm's pack library (external to this plugin). -/
inductive PackItem where
  | pstr (s : Option String)
  | ptime (t : Int)
  | p16 (n : Nat)
  | p32 (n : Nat)
  | p64 (n : Nat)
deriving DecidableEq

/-- The protocol version constant packed first by `_save_limits_state`
(line 606); its numeric value is irrelevant here. -/
def SLURM_15_08_PROTOCOL_VERSION : Nat := 7936

/-- Field group packed for one named allocation by src `_save_limits_state`
lines 622-631: account, creation time, name, partition, qos, owning user,
and — only under the emulation flag — the size. -/
def packAllocRec (emulate : Bool) (a : BbAlloc) : List PackItem :=
  [.pstr a.account, .ptime a.create_time, .pstr a.name, .pstr a.partition,
   .pstr a.qos, .p32 a.user_id] ++ (if emulate then [.p64 a.size] else [])

/-- The named (persistent) records of a registry chain, the ones
`_save_limits_state` packs (`if (bb_alloc->name)`, line 622). -/
def namedAllocs (l : List BbAlloc) : List BbAlloc :=
  l.filter (fun a => a.name.isSome)

/-- From src `_save_limits_state` (lines 595-693), the packed stream:
protocol version, record count, then the field group of every named
allocation (the count is back-patched at `count_offset`, modelled by
packing the final count directly). -/
def save_limits_state (emulate : Bool) (l : List BbAlloc) : List PackItem :=
  .p16 SLURM_15_08_PROTOCOL_VERSION :: .p32 (namedAllocs l).length ::
    (namedAllocs l).foldr (fun a acc => packAllocRec emulate a ++ acc) []

/-- Apply one recovered metadata group to the first registry record keyed
`(name, user)`: src `_recover_limit_state` lines 796-809 (`bb_find_name_rec`
then overwrite account, creation time, partition, qos). -/
def updFirstKeyMeta (nm : Option String) (uid : Nat)
    (account : Option String) (ct : Int) (part qos : Option String) :
    List BbAlloc → List BbAlloc
  | [] => []
  | a :: t =>
    if a.name = nm ∧ a.user_id = uid then
      { a with account := account, create_time := ct, partition := part,
               qos := qos } :: t
    else a :: updFirstKeyMeta nm uid account ct part qos t

/-- From src `_recover_limit_state` lines 786-809, handling of one
unpacked record: under the emulation flag the named record is created if
missing (numeric names also set the job id, the size and seen time are
restored); otherwise the record found by `(name, user)` — if any — gets the
saved account/creation-time/partition/qos. -/
def applyRecoverRec (emulate : Bool) (now : Int) (st : BbState)
    (account : Option String) (ct : Int) (name : Option String)
    (part qos : Option String) (uid : Nat) (size : Nat) : BbState :=
  match name with
  | none => st
  | some nm =>
    if emulate then
      let ar := bb_alloc_name_rec st nm uid
      { ar.1 with ahash := ar.1.ahash.map (fun a =>
          if a.id = ar.2 then
            { a with
                job_id :=
                  match nm.toList with
                  | c :: _ => if c.isDigit then parseLeadingNat nm else a.job_id
                  | [] => a.job_id,
                seen_time := now, size := size, account := account,
                create_time := ct, partition := part, qos := qos }
          else a) }
    else
      { st with ahash := updFirstKeyMeta (some nm) uid account ct part qos st.ahash }

/-- From src `_recover_limit_state` lines 778-814: unpack `rec_count`
record groups in the order they were packed; a malformed stream stops the
walk (`unpack_error`), keeping the updates applied so far. -/
def recover_recs (emulate : Bool) (now : Int) :
    Nat → List PackItem → BbState → BbState
  | 0, _, st => st
  | n + 1, buf, st =>
    match buf with
    | .pstr account :: .ptime ct :: .pstr name :: .pstr part :: .pstr qos ::
      .p32 uid :: rest =>
      if emulate then
        match rest with
        | .p64 size :: rest' =>
          recover_recs emulate now n rest'
            (applyRecoverRec true now st account ct name part qos uid size)
        | _ => st
      else
        recover_recs emulate now n rest
          (applyRecoverRec false now st account ct name part qos uid 0)
    | _ => st

/-- From src `_recover_limit_state` (lines 728-828): read the protocol
version and record count, then the records. -/
def recover_limit_state (emulate : Bool) (now : Int) (buf : List PackItem)
    (st : BbState) : BbState :=
  match buf with
  | .p16 _ :: .p32 cnt :: rest => recover_recs emulate now cnt rest st
  | _ => st

/-- Granularity rounding of one generic-resource request as performed in
place by `_test_size_limit` line 1780 (an unrecognized request is left
untouched). -/
def roundGres (st : BbState) (g : BbGres) : BbGres :=
  match findCfgGres st.cfg_gres g.name with
  | none => g
  | some cj => { g with count := bb_granularity g.count cj.granularity }

/-- The Buffer Registry key of an allocation: `(name, owning user)`. -/
def allocKey (a : BbAlloc) : Option String × Nat :=
  (a.name, a.user_id)

/-- Application of one recovered record of allocation `a` in the
non-emulated path, used to describe `recover_recs` as a fold. -/
def applyP (now : Int) (st : BbState) (a : BbAlloc) : BbState :=
  applyRecoverRec false now st a.account a.create_time a.name a.partition
    a.qos a.user_id 0

/-! Concrete instances used by the witness and counterexample theorems. -/

/-- Empty Limit Tracker usage. -/
def zeroUsage : LimitUsage :=
  { by_user := [], by_account := [], by_partition := [], by_qos := [] }

/-- No configured caps. -/
def openCaps : LimitCaps :=
  { user_cap := none, account_cap := none, partition_cap := none,
    qos_cap := none }

/-- A small baseline plugin state: one 100-byte pool, nothing allocated. -/
def emptyState : BbState :=
  { name := "cray", total_space := 100, used_space := 0, granularity := 1,
    caps := openCaps, cfg_gres := [], limits := zeroUsage, ahash := [],
    last_load_time := 0, freed_ids := [], corrupt := false }

/-- A held allocation of user 2 for job 7, expected to be used at time
200. -/
def scanAlloc : BbAlloc :=
  { id := 5, name := some "7", job_id := 7, user_id := 2, size := 10,
    use_time := 200, create_time := 0, seen_time := 0,
    state := BB_STATE_STAGING_IN, cancelled := false, account := some "acct",
    partition := some "part", qos := some "normal", gres := [] }

/-- A full pool holding only `scanAlloc`. -/
def scanSt : BbState :=
  { emptyState with used_space := 100, ahash := [scanAlloc] }

/-- The requesting job: user 1, expected start time 100. -/
def reqJob : JobRec :=
  { job_id := 1, user_id := 1, start_time := 100 }

/-- A 10-byte request of the requesting job. -/
def reqBj : BbJob :=
  { job_id := 1, account := none, partition := none, qos := none,
    total_size := 10, persist_add := 0, state := BB_STATE_PENDING,
    gres := [], bufs := [] }

/-- State with one generic-resource pool of granularity 4. -/
def c1St : BbState :=
  { emptyState with
      cfg_gres := [{ name := "nodes", granularity := 4, avail_cnt := 100,
                     used_cnt := 0 }] }

/-- A 10-byte request also asking for 5 of the "nodes" resource. -/
def c1Bj : BbJob :=
  { reqBj with gres := [{ name := "nodes", count := 5 }] }

/-- State with a 5-byte per-user cap and a "nodes" pool. -/
def c10St : BbState :=
  { c1St with caps := { openCaps with user_cap := some 5 } }

/-- State with the "nodes" pool and a full default pool. -/
def c10St2 : BbState :=
  { c1St with used_space := 100 }

/-- A held allocation of user 1 for job 7 with tracked limits of 10. -/
def tdAlloc : BbAlloc :=
  { id := 3, name := some "7", job_id := 7, user_id := 1, size := 10,
    use_time := 0, create_time := 0, seen_time := 0,
    state := BB_STATE_TEARDOWN, cancelled := false, account := some "acct",
    partition := none, qos := none, gres := [] }

/-- State holding `tdAlloc` with its Limit Tracker contributions. -/
def tdSt : BbState :=
  { emptyState with
      ahash := [tdAlloc],
      limits := { by_user := [(1, 10)], by_account := [(some "acct", 10)],
                  by_partition := [(none, 10)], by_qos := [(none, 10)] } }

/-- Outcome of one successful-teardown commit for job 7 on `tdSt`. -/
def c5Res : BbState × Option Nat :=
  start_teardown tdSt 7 1 true (some BB_STATE_TEARDOWN) true 0 false

/-- The job requesting the "scratch1" persistent buffer. -/
def c6Job : JobRec :=
  { job_id := 1, user_id := 1, start_time := 0 }

/-- A job descriptor with one pending 10-byte persistent-create
sub-request named "scratch1". -/
def c6Bj : BbJob :=
  { job_id := 1, account := some "acct", partition := some "part",
    qos := some "normal", total_size := 0, persist_add := 10,
    state := BB_STATE_PENDING, gres := [],
    bufs := [{ name := "scratch1", size := 10, state := BB_STATE_PENDING,
               destroy := false, hurry := false }] }

/-- State and descriptor after `_create_bufs` starts the create: the
sub-request is `ALLOCATING` and the 10-byte reservation is in the Limit
Tracker. -/
def c6Step1 : BbState × BbJob :=
  create_bufs_create_one emptyState c6Job c6Bj 0

/-- State, descriptor and held-flag after the create tool call exits with
status 1 and a response not containing "created". -/
def c6Step2 : BbState × BbJob × Bool :=
  create_persistent_commit false false c6Step1.1 c6Step1.2 true (some "acct")
    (some "part") (some "normal") "scratch1" 10 1 true 1 false 99

/-- A tracked persistent buffer last seen by the inventory load at time
10. -/
def c7Alloc : BbAlloc :=
  { id := 1, name := some "buf1", job_id := 0, user_id := 1, size := 10,
    use_time := 0, create_time := 0, seen_time := 10,
    state := BB_STATE_ALLOCATED, cancelled := false, account := some "acct",
    partition := none, qos := none, gres := [] }

/-- State tracking `c7Alloc`, whose limits include its 10 bytes; the last
inventory load (time 10) listed it. -/
def c7St : BbState :=
  { emptyState with
      ahash := [c7Alloc], last_load_time := 10,
      limits := { by_user := [(1, 10)], by_account := [(some "acct", 10)],
                  by_partition := [(none, 10)], by_qos := [(none, 10)] } }

/-- One reconciliation cycle at time 20 whose inventory no longer lists
`c7Alloc` (its first missed refresh). -/
def c7Res : BbState :=
  bb_agent_cycle false [] (none, none, none) [] (fun _ => false) 20 c7St

/-- Persist-time named record 1. -/
def c8p1 : BbAlloc :=
  { id := 1, name := some "n1", job_id := 0, user_id := 1, size := 5,
    use_time := 0, create_time := 11, seen_time := 0,
    state := BB_STATE_ALLOCATED, cancelled := false, account := some "a1",
    partition := some "p1", qos := some "q1", gres := [] }

/-- Persist-time named record 2. -/
def c8p2 : BbAlloc :=
  { id := 2, name := some "n2", job_id := 0, user_id := 2, size := 6,
    use_time := 0, create_time := 22, seen_time := 0,
    state := BB_STATE_ALLOCATED, cancelled := false, account := some "a2",
    partition := some "p2", qos := some "q2", gres := [] }

/-- Recover-time registry: same keys as `c8p1`/`c8p2`, metadata lost. -/
def c8StR : BbState :=
  { emptyState with ahash :=
      [{ c8p1 with id := 7, account := none, partition := none, qos := none,
                   create_time := 0 },
       { c8p2 with id := 8, account := some "x", partition := none,
                   qos := none, create_time := 0 }] }

/-- A job descriptor in `ALLOCATING` with two create sub-requests: the
first already `ALLOCATING`, about to complete; the second still
`ALLOCATING`. -/
def c9Bj : BbJob :=
  { job_id := 1, account := none, partition := none, qos := none,
    total_size := 0, persist_add := 0, state := BB_STATE_ALLOCATING,
    gres := [],
    bufs := [{ name := "b1", size := 10, state := BB_STATE_ALLOCATING,
               destroy := false, hurry := false },
             { name := "b2", size := 10, state := BB_STATE_ALLOCATING,
               destroy := false, hurry := false }] }

/-- Claim C2 (code bug).  During the admission test's candidate scan, a
held allocation's size is supposed to feed `add_user_space_avail` only when
the candidate's owning user equals the requesting job's user.  At this
concrete input the only held allocation belongs to user 2 while the
requester is user 1, yet the scan still reports 10 bytes of same-user
slack: source line 1840 reads `if (bb_ptr->user_id == job_ptr->user_id);`
— the stray semicolon makes the increment unconditional. -/
theorem c2_user_slack_counts_other_user :
    scanAlloc.user_id = 2 ∧ reqJob.user_id = 1 ∧
    (test_size_limit scanSt reqJob reqBj none 50).add_user_space_avail = 10 := by
  refine ⟨rfl, rfl, ?_⟩
  decide

/-- Claim C4 (code bug).  When the stage-out worker's `dws_data_out` call
exits abnormally (here: abnormal termination, status 1), the worker records
a failure reason and sets the descriptor state to `BB_STATE_TEARDOWN`, but
it never enqueues teardown: `_queue_teardown` is called only under
`rc == SLURM_SUCCESS` (source line 1513), so `teardown_hurry` is `none`
instead of the claimed `some true`. -/
theorem c4_stage_out_failure_skips_teardown :
    start_stage_out false 1 true 0 true (some BB_STATE_STAGING_OUT)
        (some BB_STATE_STAGING_OUT) =
      { state_reason_set := true,
        bb_alloc_state := some BB_STATE_STAGING_OUT,
        bb_job_state := some BB_STATE_TEARDOWN,
        teardown_hurry := none } := by
  decide

/-- Claim C5 (code bug).  One successful teardown commit for job 7 on
`tdSt` removes the Limit Tracker contribution exactly once (user 1 drops
from 10 to 0) and a second identical invocation is a no-op — but the commit
destroys the same Allocation Record twice (source lines 1637-1638 call
`bb_free_alloc_rec` twice in a row), dereferencing the record after it was
destroyed: the memory model flags corruption. -/
theorem c5_teardown_double_free :
    c5Res.1.corrupt = true ∧
    assocGet c5Res.1.limits.by_user 1 = 0 ∧
    start_teardown c5Res.1 7 1 true c5Res.2 true 0 false = c5Res := by
  refine ⟨?_, ?_, ?_⟩ <;> decide

/-- Claim C9 (code bug).  With two persistent sub-requests, completing the
first one (reset to `ALLOCATED`) advances the job-level state from
`ALLOCATING` to `ALLOCATED` even though the second sub-request is still in
the non-terminal `ALLOCATING` state: the completion scan of
`_reset_buf_state` exits after its first iteration via an unconditional
`break` (source line 3485) and `active_buf` is uninitialized (line 3449;
its indeterminate value is taken as `false` here). -/
theorem c9_completion_ignores_second_subrequest :
    ((reset_buf_state false emptyState c9Bj 1 "b1" BB_STATE_ALLOCATED).2.state
        = BB_STATE_ALLOCATED) ∧
    ((reset_buf_state false emptyState c9Bj 1 "b1" BB_STATE_ALLOCATED).2.bufs.map
        (fun b => b.state) = [BB_STATE_ALLOCATED, BB_STATE_ALLOCATING]) ∧
    BB_STATE_ALLOCATING ≠ BB_STATE_ALLOCATED := by
  refine ⟨?_, ?_, ?_⟩ <;> decide

/-- Claim C6 (counterexample).  The claim says a failed persistent-create
tool call (non-zero exit) returns the sub-request to `PENDING` and removes
the Limit Tracker reservation.  At this concrete input (exit status 1,
response without "created") the sub-request instead stays `ALLOCATING` and
user 1's 10-byte reservation is retained: the failure branch of
`_create_persistent` is disabled (`if (0)`, source lines 3544-3545). -/
theorem c6_create_failure_counterexample :
    (c6Step2.2.1.bufs.map (fun b => b.state) = [BB_STATE_ALLOCATING]) ∧
    BB_STATE_ALLOCATING ≠ BB_STATE_PENDING ∧
    assocGet c6Step2.1.limits.by_user 1 = 10 ∧ (10 : Int) ≠ 0 := by
  refine ⟨?_, ?_, ?_, ?_⟩ <;> decide

/-- Claim C7 (counterexample).  The claim says a record missing from just
one inventory refresh is not purged by that same cycle's timeout pass.
`c7Alloc` was listed by the latest load (its `seen_time` equals
`last_load_time`); the very first cycle whose inventory omits it purges it
immediately, with its limit contribution decremented
(`_timeout_bb_rec` purges whenever `seen_time < last_load_time`, source
line 1955). -/
theorem c7_purged_after_single_missed_refresh :
    c7St.ahash = [c7Alloc] ∧ c7Alloc.seen_time = c7St.last_load_time ∧
    c7Res.ahash = [] ∧ assocGet c7Res.limits.by_user 1 = 0 := by
  refine ⟨?_, ?_, ?_, ?_⟩ <;> decide

/-- Claim C10 (counterexample).  The claim says every call of the admission
test overwrites each recognized generic-resource request count with its
granularity-rounded value.  At this concrete input the call fails the
initial limit test (user cap 5 < requested 10) and returns deferred code 1
with the recognized "nodes" request still at its unrounded count 5
(granularity 4 would round it to 8): a call that fails the limit test
returns before the rounding loop. -/
theorem c10_limit_fail_leaves_count_unrounded :
    (test_size_limit c10St reqJob c1Bj none 0).rc = 1 ∧
    ((test_size_limit c10St reqJob c1Bj none 0).bb_job.gres.map
        (fun g => g.count) = [5]) ∧
    bb_granularity 5 4 = 8 ∧ (5 : Nat) ≠ 8 := by
  refine ⟨?_, ?_, ?_, ?_⟩ <;> decide

/-- The generic-resource matching of one selection step never touches the
`cancels` list. -/
theorem preemptCandGresGo_cancels (c : PreemptCand) :
    ∀ (js : List Nat) (acc : PreemptLoopSt × Bool),
      ((preemptCandGresGo c js acc).1).cancels = acc.1.cancels := by
  intro js
  induction js with
  | nil => intro acc; rfl
  | cons j js ih =>
    intro acc
    simp only [preemptCandGresGo]
    split
    · exact ih acc
    · split
      · exact ih _
      · exact ih acc

/-- One selection step either keeps the `cancels` list or appends exactly
the current candidate's identity. -/
theorem preemptStep_cancels (u : Nat) (c : PreemptCand) (st : PreemptLoopSt) :
    (preemptStep u c st).cancels = st.cancels ∨
    (preemptStep u c st).cancels = st.cancels ++ [c.alloc_id] := by
  simp only [preemptStep, preemptCandGres]
  split_ifs <;>
    simp [preemptCandGresGo_cancels]

/-- Every identity in the selection loop's `cancels` output was already
there or belongs to one of the scanned candidates. -/
theorem preemptLoop_cancels_sub (u : Nat) (id : Nat) :
    ∀ (cs : List PreemptCand) (st : PreemptLoopSt),
      id ∈ (preemptLoop u cs st).cancels →
      id ∈ st.cancels ∨ ∃ c ∈ cs, c.alloc_id = id := by
  intro cs
  induction cs with
  | nil => intro st h; exact Or.inl (by simpa [preemptLoop] using h)
  | cons c cs ih =>
    intro st h
    rw [preemptLoop] at h
    split at h
    · exact Or.inl h
    · rcases ih _ h with h1 | h2
      · rcases preemptStep_cancels u c st with he | he
        · rw [he] at h1; exact Or.inl h1
        · rw [he] at h1
          rcases List.mem_append.mp h1 with h3 | h3
          · exact Or.inl h3
          · refine Or.inr ⟨c, List.mem_cons_self c cs, ?_⟩
            have h4 : id = c.alloc_id := by simpa using h3
            exact h4.symm
      · obtain ⟨c', hc', he⟩ := h2
        exact Or.inr ⟨c', List.mem_cons_of_mem c hc', he⟩

/-- Membership through `insertByUse`. -/
theorem mem_insertByUse {c0 c : PreemptCand} :
    ∀ {l : List PreemptCand}, c ∈ insertByUse c0 l → c = c0 ∨ c ∈ l := by
  intro l
  induction l with
  | nil => intro h; simp [insertByUse] at h; exact Or.inl h
  | cons d t ih =>
    intro h
    rw [insertByUse] at h
    split at h
    · rcases List.mem_cons.mp h with h | h
      · exact Or.inl h
      · exact Or.inr h
    · rcases List.mem_cons.mp h with h | h
      · exact Or.inr (h ▸ List.mem_cons_self d t)
      · rcases ih h with h | h
        · exact Or.inl h
        · exact Or.inr (List.mem_cons_of_mem d h)

/-- The sort of the candidate list preserves membership. -/
theorem mem_sortByUse {c : PreemptCand} :
    ∀ {l : List PreemptCand}, c ∈ sortByUse l → c ∈ l := by
  intro l
  induction l with
  | nil => intro h; simp [sortByUse] at h
  | cons d t ih =>
    intro h
    rw [sortByUse] at h
    rcases mem_insertByUse h with h | h
    · exact h ▸ List.mem_cons_self d t
    · exact List.mem_cons_of_mem d (ih h)

/-- Every candidate pushed by the scan comes from a registry record with a
non-zero job id whose use time is after `now` and after the requesting
job's start time. -/
theorem candScan_cands_sub (job : JobRec) (g : List BbGres) (now tn : Int) :
    ∀ (l : List BbAlloc) (acc : ScanAcc) (c : PreemptCand),
      c ∈ (candScan job g now tn l acc).cands →
      c ∈ acc.cands ∨
      ∃ a ∈ l, (a.job_id ≠ 0 ∧ a.use_time > now ∧ a.use_time > job.start_time) ∧
        c = mkCand a := by
  intro l
  induction l with
  | nil => intro acc c h; exact Or.inl (by simpa [candScan] using h)
  | cons a rest ih =>
    intro acc c h
    rw [candScan] at h
    split at h
    case isTrue hcond =>
      rcases ih _ _ h with h1 | h2
      · rcases List.mem_cons.mp h1 with h3 | h3
        · exact Or.inr ⟨a, List.mem_cons_self a rest, hcond, h3⟩
        · exact Or.inl h3
      · obtain ⟨a', ha', hcond', he⟩ := h2
        exact Or.inr ⟨a', List.mem_cons_of_mem a ha', hcond', he⟩
    case isFalse =>
      rcases ih _ _ h with h1 | h2
      · exact Or.inl h1
      · obtain ⟨a', ha', hcond', he⟩ := h2
        exact Or.inr ⟨a', List.mem_cons_of_mem a ha', hcond', he⟩

/-- Claim C3.  The admission test never marks for teardown an allocation
belonging to a job whose use time is earlier than or equal to the
requesting job's expected start time: every identity in the `cancels`
output belongs to a registry record with a non-zero (job-scoped) job id and
a use time strictly after both `now` and the requester's start time. -/
theorem c3_preempt_only_strictly_later (st : BbState) (job : JobRec)
    (bj : BbJob) (resv : Option (List ResvRec)) (now : Int) (id : Nat)
    (h : id ∈ (test_size_limit st job bj resv now).cancels) :
    ∃ a ∈ st.ahash, a.id = id ∧ a.job_id ≠ 0 ∧ a.use_time > now ∧
      a.use_time > job.start_time := by
  simp only [test_size_limit] at h
  split at h
  · simp at h
  · split at h
    · simp at h
    · split at h
      · simp at h
      · split at h
        · rcases preemptLoop_cancels_sub job.user_id id _ _ h with h1 | h2
          · simp at h1
          · obtain ⟨c, hc, he⟩ := h2
            have hc2 := mem_sortByUse hc
            rcases candScan_cands_sub job _ now _ st.ahash _ c hc2 with h3 | h4
            · simp at h3
            · obtain ⟨a, ha, hcond, hce⟩ := h4
              refine ⟨a, ha, ?_, hcond.1, hcond.2.1, hcond.2.2⟩
              rw [← he, hce]
              rfl
        · simp at h

/-- Claim C3 witness: at the concrete `scanSt` input, allocation 5 is
cancelled and the theorem yields its registry record with a strictly later
use time. -/
theorem c3_preempt_only_strictly_later_witness :
    5 ∈ (test_size_limit scanSt reqJob reqBj none 50).cancels ∧
    ∃ a ∈ scanSt.ahash, a.id = 5 ∧ a.job_id ≠ 0 ∧ a.use_time > 50 ∧
      a.use_time > reqJob.start_time :=
  ⟨by decide, c3_preempt_only_strictly_later scanSt reqJob reqBj none 50 5 (by decide)⟩

/-- Claim C6 (amended).  When the persistent-create tool call exits with a
non-zero status and its response does not contain "created", the commit
phase changes nothing at all: the sub-request stays in its current state
(`ALLOCATING`), the Limit Tracker reservation added for it is retained, no
Allocation Record is created, and the job is not held — the failure-reset
branch of `_create_persistent` is disabled by `if (0)` in the source. -/
theorem c6_create_failure_is_noop (uninitActive emulate : Bool)
    (st : BbState) (bj : BbJob) (jobFound : Bool) (ja jp jq : Option String)
    (name : String) (size user_id code : Nat) (now : Int)
    (_hcode : code ≠ 0) :
    create_persistent_commit uninitActive emulate st bj jobFound ja jp jq
      name size user_id true code false now = (st, bj, false) := by
  simp [create_persistent_commit, create_persistent_failure_check]

/-- Claim C6 witness: the concrete failed create of `c6Step2` (exit status
1, response without "created") leaves the `c6Step1` state untouched. -/
theorem c6_create_failure_is_noop_witness :
    (1 : Nat) ≠ 0 ∧ c6Step2 = (c6Step1.1, c6Step1.2, false) :=
  ⟨by decide,
   c6_create_failure_is_noop false false c6Step1.1 c6Step1.2 true
     (some "acct") (some "part") (some "normal") "scratch1" 10 1 1 99
     (by decide)⟩

/-- Claim C7 (amended).  A tracked record whose buffer the latest inventory
refresh failed to list is purged by that same cycle's timeout pass — one
missed refresh suffices — with its Limit Tracker contribution
decremented.  (Stated for a registry holding the one record and an
inventory listing no sessions.) -/
theorem c7_purged_same_cycle (st : BbState) (a : BbAlloc)
    (instances : List Nat)
    (defs : Option String × Option String × Option String)
    (jobGone : Nat → Bool) (now : Int)
    (hreg : st.ahash = [a]) (hseen : a.seen_time < now) :
    (bb_agent_cycle false instances defs [] jobGone now st).ahash = [] ∧
    (bb_agent_cycle false instances defs [] jobGone now st).limits =
      (bb_limit_rem a.user_id a.account a.partition a.qos a.size st).limits := by
  have hload : load_state_sessions instances defs [] now st =
      { st with last_load_time := now } := rfl
  constructor
  · simp only [bb_agent_cycle, hload, timeout_bb_rec, Bool.false_eq_true,
      if_false, hreg, timeout_go, hseen, if_pos]
    simp [bb_limit_rem, hreg, List.filter]
  · simp only [bb_agent_cycle, hload, timeout_bb_rec, Bool.false_eq_true,
      if_false, hreg, timeout_go, hseen, if_pos]
    simp [bb_limit_rem]

/-- Claim C7 witness: the concrete cycle `c7Res` (record seen at time 10,
refresh at time 20 lists nothing) purges the record and removes its limit
contribution. -/
theorem c7_purged_same_cycle_witness :
    c7St.ahash = [c7Alloc] ∧ c7Alloc.seen_time < 20 ∧
    (c7Res.ahash = [] ∧
      c7Res.limits = (bb_limit_rem c7Alloc.user_id c7Alloc.account
        c7Alloc.partition c7Alloc.qos c7Alloc.size c7St).limits) :=
  ⟨by decide, by decide,
   c7_purged_same_cycle c7St c7Alloc [] (none, none, none) (fun _ => false)
     20 (by decide) (by decide)⟩

/-- Each entry of the `needed_gres_t` array is non-negative. -/
theorem gresAddCnt_nonneg (st : BbState) (resv : Option (List ResvRec))
    (g : BbGres) (cj : CfgGres) : 0 ≤ gresAddCnt st resv g cj := by
  unfold gresAddCnt
  split
  · linarith [‹((bb_granularity g.count cj.granularity : Nat) : Int) >
      gresFreeCnt st resv cj›]
  · exact le_refl 0

/-- Unfolding of the deficit of a recognized request. -/
theorem gresDeficit_eq (st : BbState) (resv : Option (List ResvRec))
    (g : BbGres) (cj : CfgGres)
    (hfind : findCfgGres st.cfg_gres g.name = some cj) :
    gresDeficit st resv g =
      ((bb_granularity g.count cj.granularity : Nat) : Int) -
        gresFreeCnt st resv cj := by
  unfold gresDeficit
  rw [hfind]

/-- For a recognized pool, the clamped need is non-positive exactly when the
deficit is. -/
theorem gresAddCnt_le_zero_iff (st : BbState) (resv : Option (List ResvRec))
    (g : BbGres) (cj : CfgGres)
    (hfind : findCfgGres st.cfg_gres g.name = some cj) :
    (gresAddCnt st resv g cj ≤ 0 ↔ gresDeficit st resv g ≤ 0) := by
  rw [gresDeficit_eq st resv g cj hfind]
  unfold gresAddCnt
  split
  · exact Iff.rfl
  · have h := not_lt.mp ‹¬ ((bb_granularity g.count cj.granularity : Nat) : Int) >
      gresFreeCnt st resv cj›
    constructor
    · intro _; linarith
    · intro _; exact le_refl 0

/-- A recognized request with non-positive deficit fits under the configured
available count. -/
theorem gresDeficit_fits (st : BbState) (resv : Option (List ResvRec))
    (g : BbGres) (cj : CfgGres)
    (hfind : findCfgGres st.cfg_gres g.name = some cj)
    (hle : gresDeficit st resv g ≤ 0) :
    ¬ bb_granularity g.count cj.granularity > cj.avail_cnt := by
  rw [gresDeficit_eq st resv g cj hfind] at hle
  have hfree : gresFreeCnt st resv cj ≤ (cj.avail_cnt : Int) := by
    unfold gresFreeCnt
    have h1 : (0 : Int) ≤ (cj.used_cnt : Int) := Int.natCast_nonneg _
    have h2 : (0 : Int) ≤ ((gresResv st resv cj.name : Nat) : Int) :=
      Int.natCast_nonneg _
    linarith
  have hc : ((bb_granularity g.count cj.granularity : Nat) : Int) ≤
      (cj.avail_cnt : Int) := by linarith
  exact not_lt.mpr (Nat.cast_le.mp hc)

/-- The total accumulated by the generic-resource limit scan is
non-negative. -/
theorem gresLimitScan_nonneg (st : BbState) (resv : Option (List ResvRec)) :
    ∀ (l gs : List BbGres) (nd : List NeededGres) (t : Int),
      gresLimitScan st resv l = .ok gs nd t → 0 ≤ t := by
  intro l
  induction l with
  | nil =>
    intro gs nd t h
    simp only [gresLimitScan, GresScan.ok.injEq] at h
    omega
  | cons g l ih =>
    intro gs nd t h
    simp only [gresLimitScan] at h
    cases hfind : findCfgGres st.cfg_gres g.name with
    | none => simp [hfind] at h
    | some cj =>
      simp only [hfind] at h
      split at h
      · simp at h
      · cases hrec : gresLimitScan st resv l with
        | overLimit gs' => simp [hrec] at h
        | ok gs' needed tot =>
          simp only [hrec, GresScan.ok.injEq] at h
          obtain ⟨-, -, ht⟩ := h
          have h0 := ih gs' needed tot hrec
          have h1 := gresAddCnt_nonneg st resv g cj
          linarith [ht.symm.le, ht.le]

/-- When the scan completes with a non-positive total, every request's
deficit is non-positive. -/
theorem gresLimitScan_all_le (st : BbState) (resv : Option (List ResvRec)) :
    ∀ (l gs : List BbGres) (nd : List NeededGres) (t : Int),
      gresLimitScan st resv l = .ok gs nd t → t ≤ 0 →
      ∀ g ∈ l, gresDeficit st resv g ≤ 0 := by
  intro l
  induction l with
  | nil => intro gs nd t _ _ g hg; cases hg
  | cons g l ih =>
    intro gs nd t h ht g0 hg0
    simp only [gresLimitScan] at h
    cases hfind : findCfgGres st.cfg_gres g.name with
    | none => simp [hfind] at h
    | some cj =>
      simp only [hfind] at h
      split at h
      · simp at h
      · cases hrec : gresLimitScan st resv l with
        | overLimit gs' => simp [hrec] at h
        | ok gs' needed tot =>
          simp only [hrec, GresScan.ok.injEq] at h
          obtain ⟨-, -, hsum⟩ := h
          have h0 := ih gs' needed tot hrec
          have h1 := gresAddCnt_nonneg st resv g cj
          have h2 := gresLimitScan_nonneg st resv l gs' needed tot hrec
          rcases List.mem_cons.mp hg0 with he | hm
          · subst he
            exact (gresAddCnt_le_zero_iff st resv g0 cj hfind).mp (by linarith [hsum.le])
          · exact h0 (by linarith [hsum.le]) g0 hm

/-- When every request is recognized and has non-positive deficit, the scan
completes with total zero. -/
theorem gresLimitScan_of_le (st : BbState) (resv : Option (List ResvRec)) :
    ∀ (l : List BbGres),
      (∀ g ∈ l, (findCfgGres st.cfg_gres g.name).isSome) →
      (∀ g ∈ l, gresDeficit st resv g ≤ 0) →
      ∃ gs nd, gresLimitScan st resv l = .ok gs nd 0 := by
  intro l
  induction l with
  | nil => exact fun _ _ => ⟨[], [], rfl⟩
  | cons g l ih =>
    intro hdef hle
    obtain ⟨cj, hfind⟩ := Option.isSome_iff_exists.mp
      (hdef g (List.mem_cons_self g l))
    have hfit := gresDeficit_fits st resv g cj hfind
      (hle g (List.mem_cons_self g l))
    have haz : gresAddCnt st resv g cj = 0 :=
      le_antisymm
        ((gresAddCnt_le_zero_iff st resv g cj hfind).mpr
          (hle g (List.mem_cons_self g l)))
        (gresAddCnt_nonneg st resv g cj)
    obtain ⟨gs, nd, hrec⟩ := ih
      (fun g0 hg0 => hdef g0 (List.mem_cons_of_mem g hg0))
      (fun g0 hg0 => hle g0 (List.mem_cons_of_mem g hg0))
    refine ⟨{ g with count := bb_granularity g.count cj.granularity } :: gs,
      { name := g.name, add_cnt := 0, avail_cnt := 0 } :: nd, ?_⟩
    simp only [gresLimitScan, hfind, if_neg hfit, hrec, haz, zero_add]

/-- Claim C1.  When every requested generic resource is recognized, the
admission test returns ADMIT (code 0) exactly when the limit test on
(user, account, partition, qos, requested size) passes and the computed
total-space deficit, per-user space deficit, and every generic-resource
deficit are all non-positive; and whenever the limit test fails the call
returns DEFERRED_OVER_LIMIT (code 1) untouched: the job descriptor, the
registry and the candidate accounting are exactly as before the call. -/
theorem c1_admission_iff (st : BbState) (job : JobRec) (bj : BbJob)
    (resv : Option (List ResvRec)) (now : Int)
    (hdef : ∀ g ∈ bj.gres, (findCfgGres st.cfg_gres g.name).isSome) :
    ((test_size_limit st job bj resv now).rc = 0 ↔
      (bb_limit_test job.user_id bj.account bj.partition bj.qos
          (bj.total_size + bj.persist_add) st = true ∧
       totalSpaceDeficit st bj resv ≤ 0 ∧
       userSpaceDeficit st job bj ≤ 0 ∧
       ∀ g ∈ bj.gres, gresDeficit st resv g ≤ 0)) ∧
    (bb_limit_test job.user_id bj.account bj.partition bj.qos
        (bj.total_size + bj.persist_add) st = false →
      test_size_limit st job bj resv now =
        { rc := 1, bb_job := bj, cancels := [], ahash := st.ahash,
          add_total_space_avail := 0, add_user_space_avail := 0 }) := by
  constructor
  · by_cases hlim : bb_limit_test job.user_id bj.account bj.partition bj.qos
        (bj.total_size + bj.persist_add) st = true
    · cases hscan : gresLimitScan st resv bj.gres with
      | overLimit gs' =>
        constructor
        · intro h0
          exfalso
          simp only [test_size_limit, hlim, not_true, if_neg, if_false,
            hscan] at h0
          simp at h0
        · rintro ⟨-, -, -, hg⟩
          obtain ⟨gs, nd, hok⟩ := gresLimitScan_of_le st resv bj.gres hdef hg
          rw [hscan] at hok
          cases hok
      | ok gs' needed tot =>
        have hred : (test_size_limit st job bj resv now).rc = 0 ↔
            (totalSpaceDeficit st bj resv ≤ 0 ∧
             userSpaceDeficit st job bj ≤ 0 ∧ tot ≤ 0) := by
          simp only [test_size_limit, hlim, not_true, if_false, hscan]
          split
          · simpa using ‹totalSpaceDeficit st bj resv ≤ 0 ∧
              userSpaceDeficit st job bj ≤ 0 ∧ tot ≤ 0›
          · split <;> simpa using ‹¬ (totalSpaceDeficit st bj resv ≤ 0 ∧
              userSpaceDeficit st job bj ≤ 0 ∧ tot ≤ 0)›
        rw [hred]
        constructor
        · rintro ⟨h1, h2, h3⟩
          exact ⟨hlim, h1, h2, gresLimitScan_all_le st resv bj.gres gs' needed
            tot hscan h3⟩
        · rintro ⟨-, h1, h2, hg⟩
          obtain ⟨gs, nd, hok⟩ := gresLimitScan_of_le st resv bj.gres hdef hg
          rw [hscan] at hok
          obtain ⟨-, -, hz⟩ := GresScan.ok.injEq .. ▸ hok
          exact ⟨h1, h2, by simp [← hz]⟩
    · constructor
      · intro h0
        exfalso
        simp only [test_size_limit, hlim, if_pos, not_false_iff] at h0
        simp at h0
      · rintro ⟨hl, -⟩
        exact absurd hl hlim
  · intro hfail
    have hlim : ¬ bb_limit_test job.user_id bj.account bj.partition bj.qos
        (bj.total_size + bj.persist_add) st = true := by
      simp [hfail]
    simp [test_size_limit, hlim]

/-- Claim C1 witness: at the concrete `c1St` input (one recognized "nodes"
pool, ample space) the hypotheses hold and the equivalence is obtained from
the theorem. -/
theorem c1_admission_iff_witness :
    (∀ g ∈ c1Bj.gres, (findCfgGres c1St.cfg_gres g.name).isSome) ∧
    (((test_size_limit c1St reqJob c1Bj none 0).rc = 0 ↔
       (bb_limit_test reqJob.user_id c1Bj.account c1Bj.partition c1Bj.qos
           (c1Bj.total_size + c1Bj.persist_add) c1St = true ∧
        totalSpaceDeficit c1St c1Bj none ≤ 0 ∧
        userSpaceDeficit c1St reqJob c1Bj ≤ 0 ∧
        ∀ g ∈ c1Bj.gres, gresDeficit c1St none g ≤ 0)) ∧
     (bb_limit_test reqJob.user_id c1Bj.account c1Bj.partition c1Bj.qos
         (c1Bj.total_size + c1Bj.persist_add) c1St = false →
       test_size_limit c1St reqJob c1Bj none 0 =
         { rc := 1, bb_job := c1Bj, cancels := [], ahash := c1St.ahash,
           add_total_space_avail := 0, add_user_space_avail := 0 })) :=
  ⟨by decide, c1_admission_iff c1St reqJob c1Bj none 0 (by decide)⟩

/-- Unfolding of the rounding of a recognized request. -/
theorem roundGres_eq (st : BbState) (g : BbGres) (cj : CfgGres)
    (hfind : findCfgGres st.cfg_gres g.name = some cj) :
    roundGres st g = { g with count := bb_granularity g.count cj.granularity } := by
  unfold roundGres
  rw [hfind]

/-- When every request is recognized and its rounded count is within the
configured available count, the limit scan completes and returns the
request list with every count rounded in place. -/
theorem gresLimitScan_rounds (st : BbState) (resv : Option (List ResvRec)) :
    ∀ (l : List BbGres),
      (∀ g ∈ l, ∃ cj, findCfgGres st.cfg_gres g.name = some cj ∧
        bb_granularity g.count cj.granularity ≤ cj.avail_cnt) →
      ∃ nd t, gresLimitScan st resv l = .ok (l.map (roundGres st)) nd t := by
  intro l
  induction l with
  | nil => exact fun _ => ⟨[], 0, rfl⟩
  | cons g l ih =>
    intro hg
    obtain ⟨cj, hfind, hle⟩ := hg g (List.mem_cons_self g l)
    obtain ⟨nd, t, hrec⟩ := ih (fun g0 h0 => hg g0 (List.mem_cons_of_mem g h0))
    refine ⟨{ name := g.name, add_cnt := gresAddCnt st resv g cj,
              avail_cnt := 0 } :: nd, gresAddCnt st resv g cj + t, ?_⟩
    have hfit : ¬ bb_granularity g.count cj.granularity > cj.avail_cnt :=
      not_lt.mpr hle
    simp only [gresLimitScan, hfind, if_neg hfit, hrec, List.map_cons,
      roundGres_eq st g cj hfind]

/-- Claim C10 (amended).  When the admission test passes the initial limit
test and every requested generic resource is recognized with its
granularity-rounded count within the configured available count, the call
overwrites each request count in the cached job descriptor with the rounded
value — and the mutation is part of the returned descriptor whatever the
call returns, in particular for the deferred no-space result. -/
theorem c10_rounded_counts_persist (st : BbState) (job : JobRec) (bj : BbJob)
    (resv : Option (List ResvRec)) (now : Int)
    (hlim : bb_limit_test job.user_id bj.account bj.partition bj.qos
      (bj.total_size + bj.persist_add) st = true)
    (hg : ∀ g ∈ bj.gres, ∃ cj, findCfgGres st.cfg_gres g.name = some cj ∧
      bb_granularity g.count cj.granularity ≤ cj.avail_cnt) :
    (test_size_limit st job bj resv now).bb_job.gres =
      bj.gres.map (roundGres st) := by
  obtain ⟨nd, t, hscan⟩ := gresLimitScan_rounds st resv bj.gres hg
  simp only [test_size_limit, hlim, not_true, if_false, hscan]
  split
  · rfl
  · split
    · rfl
    · rfl

/-- Claim C10 witness: the concrete deferred call on `c10St2` (full pool)
returns no-space code 2 with the "nodes" count rounded from 5 to 8 in the
cached descriptor. -/
theorem c10_rounded_counts_persist_witness :
    (bb_limit_test reqJob.user_id c1Bj.account c1Bj.partition c1Bj.qos
        (c1Bj.total_size + c1Bj.persist_add) c10St2 = true) ∧
    (test_size_limit c10St2 reqJob c1Bj none 0).rc = 2 ∧
    (test_size_limit c10St2 reqJob c1Bj none 0).bb_job.gres =
      c1Bj.gres.map (roundGres c10St2) :=
  ⟨by decide, by decide,
   c10_rounded_counts_persist c10St2 reqJob c1Bj none 0 (by decide)
     (by
       intro g hgm
       have hgl : c1Bj.gres = [{ name := "nodes", count := 5 }] := rfl
       rw [hgl] at hgm
       have hge : g = { name := "nodes", count := 5 } :=
         List.mem_singleton.mp hgm
       subst hge
       exact ⟨{ name := "nodes", granularity := 4, avail_cnt := 100,
                used_cnt := 0 }, by decide, by decide⟩)⟩

/-- `updFirstKeyMeta` preserves every record's key. -/
theorem updFirstKeyMeta_keys (nm : Option String) (uid : Nat)
    (account : Option String) (ct : Int) (part qos : Option String) :
    ∀ l : List BbAlloc,
      (updFirstKeyMeta nm uid account ct part qos l).map allocKey =
        l.map allocKey := by
  intro l
  induction l with
  | nil => rfl
  | cons a t ih =>
    rw [updFirstKeyMeta]
    split
    · rfl
    · simp only [List.map_cons, ih]

/-- `applyP` preserves the keys of the registry chain. -/
theorem applyP_keys (now : Int) (st : BbState) (a : BbAlloc) :
    (applyP now st a).ahash.map allocKey = st.ahash.map allocKey := by
  unfold applyP applyRecoverRec
  cases hn : a.name with
  | none => rfl
  | some nm => simp [updFirstKeyMeta_keys]

/-- Transport of key-distinctness along an equality of key lists. -/
theorem pairwiseKeys_of_map_eq {l1 l2 : List BbAlloc}
    (h : l1.map allocKey = l2.map allocKey)
    (hp : l2.Pairwise (fun a b => allocKey a ≠ allocKey b)) :
    l1.Pairwise (fun a b => allocKey a ≠ allocKey b) := by
  have h1 : (l1.map allocKey).Pairwise (fun a b => a ≠ b) := by
    rw [h]
    exact List.pairwise_map.mpr hp
  exact List.pairwise_map.mp h1

/-- In a key-distinct chain, every record that carries the updated key after
`updFirstKeyMeta` carries the new metadata. -/
theorem updFirstKeyMeta_hits (nm : String) (uid : Nat)
    (account : Option String) (ct : Int) (part qos : Option String) :
    ∀ l : List BbAlloc, l.Pairwise (fun a b => allocKey a ≠ allocKey b) →
      ∀ r ∈ updFirstKeyMeta (some nm) uid account ct part qos l,
        allocKey r = (some nm, uid) →
        r.account = account ∧ r.create_time = ct ∧ r.partition = part ∧
          r.qos = qos := by
  intro l
  induction l with
  | nil => intro _ r hr; cases hr
  | cons a t ih =>
    intro hp r hr hk
    rw [List.pairwise_cons] at hp
    rw [updFirstKeyMeta] at hr
    split at hr
    · rcases List.mem_cons.mp hr with he | hm
      · subst he
        exact ⟨rfl, rfl, rfl, rfl⟩
      · exfalso
        have hka : allocKey a = (some nm, uid) := by
          obtain ⟨h1, h2⟩ := ‹a.name = some nm ∧ a.user_id = uid›
          simp [allocKey, h1, h2]
        exact hp.1 r hm (by rw [hka, hk])
    · rcases List.mem_cons.mp hr with he | hm
      · exfalso
        subst he
        have hc : r.name = some nm ∧ r.user_id = uid := by
          have h1 := congrArg Prod.fst hk
          have h2 := congrArg Prod.snd hk
          exact ⟨h1, h2⟩
        exact ‹¬ (r.name = some nm ∧ r.user_id = uid)› hc
      · exact ih hp.2 r hm hk

/-- A record whose key differs from the updated key was already in the
chain before `updFirstKeyMeta`. -/
theorem updFirstKeyMeta_misses (nm : Option String) (uid : Nat)
    (account : Option String) (ct : Int) (part qos : Option String) :
    ∀ l : List BbAlloc, ∀ r ∈ updFirstKeyMeta nm uid account ct part qos l,
      allocKey r ≠ (nm, uid) → r ∈ l := by
  intro l
  induction l with
  | nil => intro r hr; cases hr
  | cons a t ih =>
    intro r hr hne
    rw [updFirstKeyMeta] at hr
    split at hr
    · rcases List.mem_cons.mp hr with he | hm
      · exfalso
        apply hne
        subst he
        obtain ⟨h1, h2⟩ := ‹a.name = nm ∧ a.user_id = uid›
        simp [allocKey, h1, h2]
      · exact List.mem_cons_of_mem a hm
    · rcases List.mem_cons.mp hr with he | hm
      · exact he ▸ List.mem_cons_self a t
      · exact List.mem_cons_of_mem a (ih r hm hne)

/-- A record whose key differs from the applied record's key is untouched by
`applyP`. -/
theorem applyP_misses (now : Int) (st : BbState) (p r : BbAlloc)
    (hr : r ∈ (applyP now st p).ahash) (hne : allocKey r ≠ allocKey p) :
    r ∈ st.ahash := by
  unfold applyP applyRecoverRec at hr
  cases hn : p.name with
  | none => rw [hn] at hr; exact hr
  | some nm =>
    rw [hn] at hr
    refine updFirstKeyMeta_misses (some nm) p.user_id p.account p.create_time
      p.partition p.qos st.ahash r hr ?_
    have hkp : allocKey p = (some nm, p.user_id) := by simp [allocKey, hn]
    rw [← hkp]
    exact hne

/-- A record whose key avoids every applied key survives a fold of `applyP`
unchanged. -/
theorem foldl_applyP_misses (now : Int) :
    ∀ (l : List BbAlloc) (st : BbState) (k : Option String × Nat)
      (r : BbAlloc),
      (∀ b ∈ l, allocKey b ≠ k) → r ∈ (l.foldl (applyP now) st).ahash →
      allocKey r = k → r ∈ st.ahash := by
  intro l
  induction l with
  | nil => intro st k r _ hr _; exact hr
  | cons p t ih =>
    intro st k r hk hr hkey
    rw [List.foldl_cons] at hr
    have hr2 := ih (applyP now st p) k r
      (fun b hb => hk b (List.mem_cons_of_mem p hb)) hr hkey
    refine applyP_misses now st p r hr2 ?_
    rw [hkey]
    exact fun h => hk p (List.mem_cons_self p t) h.symm

/-- After applying a named record `p`, every registry record carrying `p`'s
key carries `p`'s metadata (given key-distinct chains). -/
theorem applyP_hits (now : Int) (st : BbState) (p : BbAlloc) (nm : String)
    (hn : p.name = some nm)
    (hp : st.ahash.Pairwise (fun a b => allocKey a ≠ allocKey b)) :
    ∀ r ∈ (applyP now st p).ahash, allocKey r = allocKey p →
      r.account = p.account ∧ r.create_time = p.create_time ∧
      r.partition = p.partition ∧ r.qos = p.qos := by
  intro r hr hk
  unfold applyP applyRecoverRec at hr
  rw [hn] at hr
  refine updFirstKeyMeta_hits nm p.user_id p.account p.create_time p.partition
    p.qos st.ahash hp r hr ?_
  rw [hk]
  simp [allocKey, hn]

/-- Folding the recovered records over a registry restores, for every
applied named record, its metadata on the record carrying its key. -/
theorem foldl_applyP_meta (now : Int) :
    ∀ (l : List BbAlloc) (st : BbState),
      l.Pairwise (fun a b => allocKey a ≠ allocKey b) →
      st.ahash.Pairwise (fun a b => allocKey a ≠ allocKey b) →
      ∀ p ∈ l, p.name.isSome → ∀ r ∈ (l.foldl (applyP now) st).ahash,
        allocKey r = allocKey p →
        r.account = p.account ∧ r.create_time = p.create_time ∧
        r.partition = p.partition ∧ r.qos = p.qos := by
  intro l
  induction l with
  | nil => intro st _ _ p hp; cases hp
  | cons q t ih =>
    intro st hl hst p hpmem hpname r hr hk
    rw [List.pairwise_cons] at hl
    rw [List.foldl_cons] at hr
    have hst1 : (applyP now st q).ahash.Pairwise
        (fun a b => allocKey a ≠ allocKey b) :=
      pairwiseKeys_of_map_eq (applyP_keys now st q) hst
    rcases List.mem_cons.mp hpmem with he | hm
    · subst he
      obtain ⟨nm, hn⟩ := Option.isSome_iff_exists.mp hpname
      have hr2 : r ∈ (applyP now st p).ahash :=
        foldl_applyP_misses now t (applyP now st p) (allocKey p) r
          (fun b hb => (hl.1 b hb).symm) hr hk
      exact applyP_hits now st p nm hn hst r hr2 hk
    · exact ih (applyP now st q) hl.2 hst1 p hm hpname r hr hk

/-- The packed stream of a record list is consumed group by group:
recovering it equals folding the per-record application. -/
theorem recover_recs_stream (now : Int) :
    ∀ (l : List BbAlloc) (st : BbState),
      recover_recs false now l.length
        (l.foldr (fun a acc => packAllocRec false a ++ acc) []) st =
      l.foldl (applyP now) st := by
  intro l
  induction l with
  | nil => intro st; rfl
  | cons a t ih =>
    intro st
    simp only [List.length_cons, List.foldr_cons, packAllocRec,
      Bool.false_eq_true, if_false, List.append_nil, List.cons_append,
      List.nil_append, recover_recs, List.foldl_cons, applyP]
    exact ih _

/-- Claim C8.  Writing the durable metadata snapshot of the named records
of a persist-time registry `P` and reading it back into a recover-time
registry restores, for every named persist-time record, the identical
(account, creation-time, partition, qos) metadata on the recover-time
record carrying the same (name, owning-user) key — the key equality itself
being the name/owner part of the tuple.  (Both registries satisfy the
Buffer Registry invariant of at most one record per key.) -/
theorem c8_save_recover_round_trip (P : List BbAlloc) (stR : BbState)
    (now : Int)
    (hP : (namedAllocs P).Pairwise (fun a b => allocKey a ≠ allocKey b))
    (hR : stR.ahash.Pairwise (fun a b => allocKey a ≠ allocKey b)) :
    ∀ p ∈ namedAllocs P,
      ∀ r ∈ (recover_limit_state false now (save_limits_state false P)
          stR).ahash,
        allocKey r = allocKey p →
        r.account = p.account ∧ r.create_time = p.create_time ∧
        r.partition = p.partition ∧ r.qos = p.qos := by
  intro p hp r hr hk
  have hr' : r ∈ ((namedAllocs P).foldl (applyP now) stR).ahash := by
    rw [← recover_recs_stream now (namedAllocs P) stR]
    exact hr
  have hpname : p.name.isSome := by
    have h := List.mem_filter.mp hp
    exact h.2
  exact foldl_applyP_meta now (namedAllocs P) stR hP hR p hp hpname r hr' hk

/-- Claim C8 witness: two named records with distinct keys saved and
recovered into a registry that lost their metadata. -/
theorem c8_save_recover_round_trip_witness :
    ((namedAllocs [c8p1, c8p2]).Pairwise
      (fun a b => allocKey a ≠ allocKey b)) ∧
    (c8StR.ahash.Pairwise (fun a b => allocKey a ≠ allocKey b)) ∧
    (∀ p ∈ namedAllocs [c8p1, c8p2],
      ∀ r ∈ (recover_limit_state false 0 (save_limits_state false
          [c8p1, c8p2]) c8StR).ahash,
        allocKey r = allocKey p →
        r.account = p.account ∧ r.create_time = p.create_time ∧
        r.partition = p.partition ∧ r.qos = p.qos) :=
  ⟨by decide, by decide,
   c8_save_recover_round_trip [c8p1, c8p2] c8StR 0 (by decide) (by decide)⟩

end BurstBuffer
